import Mathlib

/-!
Verification of the srtla packet-forwarding engine (bond-bunny).

The definitions below are a shallow embedding of the C++ sources:
  - `Conn` and its operations mirror `srtla_connection.cpp` / `srtla_connection.h`;
  - `get_packet_type`, `parse_srt_nak`, `create_keepalive_len` mirror
    `srtla_protocol.cpp`;
  - `handle_srtla_response`, `remove_connection`, `connection_housekeeping`,
    `cleanup_expired_zombies` and the event-loop timeout-recovery phase mirror
    `srtla_core.cpp`.

Modelling conventions:
  - machine integers are `Nat`/`Int` with explicit `% 2^32` where the C code's
    `uint32_t` wraparound matters;
  - C `double` RTT estimators are modelled as exact rationals (`ℚ`); the EWMA
    coefficients 0.875/0.125/0.75/0.25 are exactly representable;
  - wall-clock reads (`get_current_time_ms`) become explicit `now : Int`
    parameters;
  - socket sends become entries in returned action lists; a send is recorded as
    the pair (virtual ip, datagram length);
  - fields of `Connection` that no modelled operation reads or writes
    (`fd_`, `type_`, `weight_`) are omitted from the record.
-/

namespace Srtla

/-- Window constants from `srtla_connection.h` (`Connection` private constants;
note these differ from the unused constants in `srtla_protocol.h`). -/
def WINDOW_DEF : Int := 20

/-- Window scale factor, `srtla_connection.h`. -/
def WINDOW_MULT : Int := 1000

/-- Minimum unscaled window, `srtla_connection.h`. -/
def WINDOW_MIN : Int := 1

/-- Maximum unscaled window, `srtla_connection.h`. -/
def WINDOW_MAX : Int := 60

/-- Connection states, `Connection::State` in `srtla_connection.h`. -/
inductive ConnState where
  | DISCONNECTED
  | REGISTERING_REG1
  | REGISTERING_REG2
  | CONNECTED
  | ZOMBIE
  | FAILED
deriving DecidableEq, Repr

/-- Shallow embedding of the `Connection` class state
(`srtla_connection.h`).  `packets_in_flight` models the
`std::unordered_set<uint32_t>`; sequence numbers are naturals below `2^32`. -/
structure Conn where
  virtual_ip : String
  state : ConnState
  zombie_time : Int
  window : Int
  packets_in_flight : Finset ℕ
  last_received : Int
  last_sent : Int
  last_activity : Int
  bytes_sent : ℕ
  packets_sent : ℕ
  nak_count : ℕ
  ack_count : ℕ
  smooth_rtt : ℚ
  fast_rtt : ℚ
  last_rtt_measurement : Int
deriving DecidableEq

/-- The `Connection` constructor (`srtla_connection.cpp`): initial window
`WINDOW_DEF * WINDOW_MULT`, empty inflight set, RTT estimators start at
100 ms, `last_activity_` stamped with the current time. -/
def Conn.init (ip : String) (now : Int) : Conn :=
  { virtual_ip := ip
    state := ConnState.DISCONNECTED
    zombie_time := 0
    window := WINDOW_DEF * WINDOW_MULT
    packets_in_flight := ∅
    last_received := 0
    last_sent := 0
    last_activity := now
    bytes_sent := 0
    packets_sent := 0
    nak_count := 0
    ack_count := 0
    smooth_rtt := 100
    fast_rtt := 100
    last_rtt_measurement := 0 }

/-- `Connection::mark_sent(seq, bytes)`: insert into inflight, bump counters,
stamp `last_sent_` / `last_activity_`. -/
def Conn.mark_sent (c : Conn) (seq : ℕ) (bytes : ℕ) (now : Int) : Conn :=
  { c with
    packets_in_flight := insert seq c.packets_in_flight
    packets_sent := c.packets_sent + 1
    bytes_sent := c.bytes_sent + bytes
    last_sent := now
    last_activity := now }

/-- The wrap-aware covering test of `Connection::handle_srt_ack_sn`: the C code
computes `int32_t diff = (int32_t)(ack_sn - seq)` in `uint32_t` arithmetic and
keeps `diff >= 0`, i.e. the modular difference lies below `2^31`. -/
def ackCovers (ack seq : ℕ) : Prop := (2 ^ 32 + ack - seq) % 2 ^ 32 < 2 ^ 31

instance (ack seq : ℕ) : Decidable (ackCovers ack seq) := by
  unfold ackCovers; infer_instance

/-- `Connection::handle_srt_ack_sn(ack_sn)`: remove every inflight sequence
whose signed 32-bit difference from `ack_sn` is nonnegative; if anything was
removed, stamp activity and add the removal count to `ack_count_`.  The window
is not touched. -/
def Conn.handle_srt_ack_sn (c : Conn) (ack : ℕ) (now : Int) : Conn :=
  let toRemove := c.packets_in_flight.filter (fun seq => ackCovers ack seq)
  if toRemove = ∅ then c
  else
    { c with
      packets_in_flight := c.packets_in_flight \ toRemove
      last_activity := now
      ack_count := c.ack_count + toRemove.card }

/-- `Connection::handle_srt_nak_sn(seq)`: a connection that did not send `seq`
returns immediately untouched; otherwise `seq` is removed from inflight, the
window becomes `max(window - 100, WINDOW_MIN * WINDOW_MULT)`, `nak_count_` is
incremented and activity stamped. -/
def Conn.handle_srt_nak_sn (c : Conn) (seq : ℕ) (now : Int) : Conn :=
  if seq ∈ c.packets_in_flight then
    { c with
      packets_in_flight := c.packets_in_flight.erase seq
      window := max (c.window - 100) (WINDOW_MIN * WINDOW_MULT)
      nak_count := c.nak_count + 1
      last_activity := now }
  else c

/-- `Connection::handle_srtla_ack_sn(seq)`: if `seq` is inflight it is removed,
an RTT sample is folded when `last_sent_ > 0` (EWMA 0.875/0.125 and 0.75/0.25),
and 29 is added to the window when `|inflight| * WINDOW_MULT > window` after
the removal (the source compares through `size_t`; for the nonnegative windows
the code maintains this agrees with the integer comparison used here).
Unconditionally the window then grows by 1, saturated at
`WINDOW_MAX * WINDOW_MULT`. -/
def Conn.handle_srtla_ack_sn (c : Conn) (seq : ℕ) (now : Int) : Conn :=
  if seq ∈ c.packets_in_flight then
    let inflight2 := c.packets_in_flight.erase seq
    let sampled := 0 < c.last_sent
    let rtt : ℚ := ((now - c.last_sent : Int) : ℚ)
    let w1 := if (inflight2.card : Int) * WINDOW_MULT > c.window then c.window + 29 else c.window
    { c with
      packets_in_flight := inflight2
      smooth_rtt := if sampled then c.smooth_rtt * (7 / 8) + rtt * (1 / 8) else c.smooth_rtt
      fast_rtt := if sampled then c.fast_rtt * (3 / 4) + rtt * (1 / 4) else c.fast_rtt
      last_rtt_measurement := if sampled then now else c.last_rtt_measurement
      ack_count := c.ack_count + 1
      last_activity := now
      window := min (w1 + 1) (WINDOW_MAX * WINDOW_MULT) }
  else
    { c with window := min (c.window + 1) (WINDOW_MAX * WINDOW_MULT) }

/-- `Connection::increase_window()`. -/
def Conn.increase_window (c : Conn) : Conn :=
  { c with window := min (c.window + 1) (WINDOW_MAX * WINDOW_MULT) }

/-- `Connection::decrease_window()`: shrink to 75% (C++ integer division;
for the nonnegative windows the code maintains, Lean's `Int` division agrees
with the C++ truncating division), clamped below at
`WINDOW_MIN * WINDOW_MULT`. -/
def Conn.decrease_window (c : Conn) : Conn :=
  let w1 := c.window * 3 / 4
  { c with window := if w1 < WINDOW_MIN * WINDOW_MULT then WINDOW_MIN * WINDOW_MULT else w1 }

/-- `Connection::reset_window()`: window back to the default, inflight cleared. -/
def Conn.reset_window (c : Conn) : Conn :=
  { c with window := WINDOW_DEF * WINDOW_MULT, packets_in_flight := ∅ }

/-- `Connection::clear_inflight()`. -/
def Conn.clear_inflight (c : Conn) : Conn :=
  { c with packets_in_flight := ∅ }

/-- `Connection::mark_received()`. -/
def Conn.mark_received (c : Conn) (now : Int) : Conn :=
  { c with last_received := now, last_activity := now }

/-- `Connection::mark_zombie()`. -/
def Conn.mark_zombie (c : Conn) (now : Int) : Conn :=
  { c with state := ConnState.ZOMBIE, zombie_time := now }

/-- `Connection::is_timed_out()`: activity gap strictly above 4000 ms. -/
def Conn.is_timed_out (c : Conn) (now : Int) : Prop :=
  4000 < now - c.last_activity

instance (c : Conn) (now : Int) : Decidable (c.is_timed_out now) := by
  unfold Conn.is_timed_out; infer_instance

/-- `Connection::is_zombie_expired()`: zombie for strictly more than 15000 ms. -/
def Conn.is_zombie_expired (c : Conn) (now : Int) : Prop :=
  c.state = ConnState.ZOMBIE ∧ 15000 < now - c.zombie_time

instance (c : Conn) (now : Int) : Decidable (c.is_zombie_expired now) := by
  unfold Conn.is_zombie_expired; infer_instance

/-- The operations of claim C1, each tagged with its arguments and the clock
value at which it runs. -/
inductive Op where
  | markSent (seq bytes : ℕ) (now : Int)
  | srtAck (ack : ℕ) (now : Int)
  | srtNak (seq : ℕ) (now : Int)
  | srtlaAck (seq : ℕ) (now : Int)
  | incWindow
  | decWindow
  | resetWindow
  | clearInflight

/-- Apply one operation to a connection. -/
def applyOp (c : Conn) : Op → Conn
  | Op.markSent seq bytes now => c.mark_sent seq bytes now
  | Op.srtAck ack now => c.handle_srt_ack_sn ack now
  | Op.srtNak seq now => c.handle_srt_nak_sn seq now
  | Op.srtlaAck seq now => c.handle_srtla_ack_sn seq now
  | Op.incWindow => c.increase_window
  | Op.decWindow => c.decrease_window
  | Op.resetWindow => c.reset_window
  | Op.clearInflight => c.clear_inflight

/-- Apply a sequence of operations left to right. -/
def applyOps (c : Conn) (ops : List Op) : Conn :=
  ops.foldl applyOp c

/-- The window bound of spec invariant P1. -/
def windowInv (c : Conn) : Prop :=
  WINDOW_MIN * WINDOW_MULT ≤ c.window ∧ c.window ≤ WINDOW_MAX * WINDOW_MULT

lemma windowInv_applyOp (c : Conn) (op : Op) (h : windowInv c) : windowInv (applyOp c op) := by
  obtain ⟨h1, h2⟩ := h
  simp only [windowInv, WINDOW_MIN, WINDOW_MULT, WINDOW_MAX] at h1 h2 ⊢
  cases op with
  | markSent seq bytes now =>
      simp only [applyOp, Conn.mark_sent]
      exact ⟨h1, h2⟩
  | srtAck ack now =>
      simp only [applyOp, Conn.handle_srt_ack_sn]
      split
      · exact ⟨h1, h2⟩
      · exact ⟨h1, h2⟩
  | srtNak seq now =>
      simp only [applyOp, Conn.handle_srt_nak_sn, WINDOW_MIN, WINDOW_MULT]
      split
      · (try dsimp only)
        omega
      · exact ⟨h1, h2⟩
  | srtlaAck seq now =>
      simp only [applyOp, Conn.handle_srtla_ack_sn, WINDOW_MULT, WINDOW_MAX]
      split
      · split <;> (try dsimp only) <;> omega
      · (try dsimp only)
        omega
  | incWindow =>
      simp only [applyOp, Conn.increase_window, WINDOW_MULT, WINDOW_MAX]
      (try dsimp only)
      omega
  | decWindow =>
      simp only [applyOp, Conn.decrease_window, WINDOW_MIN, WINDOW_MULT]
      split <;> (try dsimp only) <;> omega
  | resetWindow =>
      simp only [applyOp, Conn.reset_window, WINDOW_DEF, WINDOW_MULT]
      (try dsimp only)
      omega
  | clearInflight =>
      simp only [applyOp, Conn.clear_inflight]
      exact ⟨h1, h2⟩

lemma windowInv_init (ip : String) (now : Int) : windowInv (Conn.init ip now) := by
  simp [Conn.init, windowInv, WINDOW_DEF, WINDOW_MIN, WINDOW_MULT, WINDOW_MAX]

/-- C1: starting from the freshly constructed connection (window
`WINDOW_DEF * WINDOW_MULT = 20000`), every sequence of the operations
`mark_sent`, `handle_srt_ack_sn`, `handle_srt_nak_sn`, `handle_srtla_ack_sn`,
`increase_window`, `decrease_window`, `reset_window`, `clear_inflight` leaves
the window inside `[WINDOW_MIN * WINDOW_MULT, WINDOW_MAX * WINDOW_MULT] =
[1000, 60000]`. -/
lemma windowInv_applyOps (c : Conn) (ops : List Op) (h : windowInv c) :
    windowInv (applyOps c ops) := by
  unfold applyOps
  induction ops generalizing c with
  | nil => simpa using h
  | cons op rest ih =>
      rw [List.foldl_cons]
      exact ih _ (windowInv_applyOp _ _ h)

theorem window_always_bounded (ip : String) (t0 : Int) (ops : List Op) :
    WINDOW_MIN * WINDOW_MULT ≤ (applyOps (Conn.init ip t0) ops).window ∧
    (applyOps (Conn.init ip t0) ops).window ≤ WINDOW_MAX * WINDOW_MULT :=
  windowInv_applyOps _ ops (windowInv_init ip t0)

/-! Protocol codec, from `srtla_protocol.h` / `srtla_protocol.cpp`.
Datagrams are byte lists (each entry below 256). -/

def SRTLA_TYPE_KEEPALIVE : ℕ := 0x9000

def SRTLA_TYPE_ACK : ℕ := 0x9100

def SRTLA_TYPE_REG1 : ℕ := 0x9200

def SRTLA_TYPE_REG2 : ℕ := 0x9201

def SRTLA_TYPE_REG3 : ℕ := 0x9202

def SRTLA_TYPE_REG_ERR : ℕ := 0x9210

def SRTLA_TYPE_REG_NGP : ℕ := 0x9211

def SRTLA_TYPE_DATA : ℕ := 0x9300

def SRT_TYPE_DATA : ℕ := 0x8000

def SRT_TYPE_CONTROL : ℕ := 0x0000

def SRT_TYPE_ACK : ℕ := 0x0002

def SRT_TYPE_NAK : ℕ := 0x0003

def SRT_TYPE_SHUTDOWN : ℕ := 0x0005

def SRTLA_ID_LEN : ℕ := 256

/-- Big-endian 32-bit word from four bytes. -/
def beWord (b0 b1 b2 b3 : ℕ) : ℕ := ((b0 * 256 + b1) * 256 + b2) * 256 + b3

/-- Big-endian 32-bit word read at a byte offset (used where the C code reads
a `uint32_t` at a checked offset; the default 0 is never reached under the
length guards the callers establish). -/
def beWordAt (data : List ℕ) (off : ℕ) : ℕ :=
  beWord (data.getD off 0) (data.getD (off + 1) 0) (data.getD (off + 2) 0) (data.getD (off + 3) 0)

/-- The C cast `const uint32_t* ids = (const uint32_t*)data` with
`num_ids = len / 4`: the byte list chopped into full big-endian words,
trailing bytes dropped. -/
def toWords : List ℕ → List ℕ
  | b0 :: b1 :: b2 :: b3 :: rest => beWord b0 b1 b2 b3 :: toWords rest
  | _ => []

/-- `Protocol::get_packet_type`: first two bytes as big-endian type; a type
with the 0x9000 bits set is SRTLA control and returned verbatim; otherwise the
first 32-bit word's bit 31 separates SRT control (subtype 2 is ACK, 3 is NAK,
the rest collapse to SRT_TYPE_CONTROL) from SRT data. -/
def get_packet_type (data : List ℕ) : ℕ :=
  match data with
  | b0 :: b1 :: rest =>
    let ty := b0 * 256 + b1
    if ty &&& 0x9000 = 0x9000 then ty
    else
      match rest with
      | b2 :: b3 :: _ =>
        let header := beWord b0 b1 b2 b3
        if header.testBit 31 then
          let srt_type := (header >>> 16) &&& 0x7FFF
          if srt_type = 2 then SRT_TYPE_ACK
          else if srt_type = 3 then SRT_TYPE_NAK
          else SRT_TYPE_CONTROL
        else SRT_TYPE_DATA
      | _ => 0
  | _ => 0

/-- The inner loss-range loop of `Protocol::parse_srt_nak`: emit
`lost, lost+1, ...` (in `uint32_t` arithmetic, so incrementing wraps at
`2^32`) while `lost <= last_id` and capacity remains. -/
def nakRangeLoop (lost last_id : ℕ) (cap : ℕ) : List ℕ :=
  match cap with
  | 0 => []
  | cap2 + 1 =>
    if lost ≤ last_id then lost :: nakRangeLoop ((lost + 1) % 2 ^ 32) last_id cap2 else []

/-- The outer word loop of `Protocol::parse_srt_nak` over the words after the
16-byte SRT header, with remaining capacity `cap` (the loop guard
`count < max_seqs`).  A word with bit 31 set starts a loss range ending at the
following word (a trailing range-start without an end emits just the masked
start); otherwise the word is a single lost sequence. -/
def nakOuter : List ℕ → ℕ → List ℕ
  | [], _ => []
  | _ :: _, 0 => []
  | id :: rest, cap + 1 =>
    if id.testBit 31 then
      match rest with
      | last_id :: rest2 =>
        let block := nakRangeLoop (id &&& 0x7FFFFFFF) last_id (cap + 1)
        block ++ nakOuter rest2 (cap + 1 - block.length)
      | [] => [id &&& 0x7FFFFFFF]
    else
      id :: nakOuter rest cap

/-- `Protocol::parse_srt_nak(data, len, nak_seqs, max_seqs)`: errors (C return
-1) when the datagram is shorter than the 16-byte SRT control header or
`max_seqs < 1`; otherwise the list of sequence numbers written to the output
array (the C return value is its length). -/
def parse_srt_nak (data : List ℕ) (max_seqs : ℕ) : Option (List ℕ) :=
  if data.length < 16 ∨ max_seqs < 1 then none
  else some (nakOuter ((toWords data).drop 4) max_seqs)

/-- Length behaviour of `Protocol::create_keepalive_packet(buffer, size)`:
it refuses (returns 0) when the buffer is smaller than the 10-byte KEEPALIVE
frame, and otherwise writes exactly 10 bytes. -/
def create_keepalive_len (buffer_size : ℕ) : ℕ :=
  if buffer_size < 10 then 0 else 10

lemma nakRangeLoop_length (lost last_id cap : ℕ) :
    (nakRangeLoop lost last_id cap).length ≤ cap := by
  induction cap generalizing lost with
  | zero => simp [nakRangeLoop]
  | succ cap2 ih =>
      simp only [nakRangeLoop]
      split
      · simpa using Nat.succ_le_succ (ih _)
      · simp

lemma nakOuter_length_aux :
    ∀ (n : ℕ) (ws : List ℕ), ws.length ≤ n → ∀ (cap : ℕ), (nakOuter ws cap).length ≤ cap := by
  intro n
  induction n with
  | zero =>
      intro ws hw cap
      have hnil : ws = [] := List.length_eq_zero.mp (Nat.le_zero.mp hw)
      subst hnil
      simp [nakOuter]
  | succ n ih =>
      intro ws hw cap
      cases ws with
      | nil => simp [nakOuter]
      | cons id rest =>
          cases cap with
          | zero => simp [nakOuter]
          | succ cap2 =>
              rw [nakOuter.eq_def]
              dsimp only
              split
              · cases rest with
                | nil => exact Nat.succ_le_succ (Nat.zero_le _)
                | cons last_id rest2 =>
                    simp only [List.length_append]
                    have hb := nakRangeLoop_length (id &&& 0x7FFFFFFF) last_id (cap2 + 1)
                    have ihh := ih rest2 (by simp only [List.length_cons] at hw; omega)
                      (cap2 + 1 - (nakRangeLoop (id &&& 0x7FFFFFFF) last_id (cap2 + 1)).length)
                    omega
              · simp only [List.length_cons]
                have ihh := ih rest (by simp only [List.length_cons] at hw; omega) cap2
                omega

lemma nakOuter_length (ws : List ℕ) (cap : ℕ) : (nakOuter ws cap).length ≤ cap :=
  nakOuter_length_aux ws.length ws le_rfl cap

/-- C10: parse_srt_nak never writes more than max_seqs entries nor reports a
larger count, and an oversized loss list is truncated silently rather than
rejected: any datagram with the 16-byte header and max_seqs at least 1 parses
successfully. -/
theorem parse_srt_nak_bounded :
    (∀ data max_seqs out, parse_srt_nak data max_seqs = some out → out.length ≤ max_seqs) ∧
    (∀ data max_seqs, 16 ≤ data.length → 1 ≤ max_seqs →
      ∃ out, parse_srt_nak data max_seqs = some out) := by
  constructor
  · intro data max_seqs out h
    unfold parse_srt_nak at h
    split at h
    · exact absurd h (by simp)
    · obtain rfl : nakOuter ((toWords data).drop 4) max_seqs = out := by
        simpa using h
      exact nakOuter_length _ _
  · intro data max_seqs h1 h2
    refine ⟨nakOuter ((toWords data).drop 4) max_seqs, ?_⟩
    unfold parse_srt_nak
    rw [if_neg (by omega)]

/-- A 24-byte NAK datagram whose single loss range 100..109 lists ten
sequences, parsed with capacity 4. -/
def nakDemo : List ℕ := List.replicate 16 0 ++ [0x80, 0, 0, 100, 0, 0, 0, 109]

theorem parse_srt_nak_bounded_witness :
    ([100, 101, 102, 103] : List ℕ).length ≤ 4 ∧
    ∃ out, parse_srt_nak nakDemo 4 = some out :=
  ⟨parse_srt_nak_bounded.1 nakDemo 4 [100, 101, 102, 103] (by decide),
   parse_srt_nak_bounded.2 nakDemo 4 (by decide) (by decide)⟩

/-! Claim C2: behaviour of handle_srtla_ack_sn. -/

/-- Specification predicate for one call of `Connection::handle_srtla_ack_sn`:
a sequence found inflight is removed, an RTT sample is folded (EWMA 1/8 and
1/4), and the window gains 29 when the post-removal inflight exceeds the
window, then unconditionally 1 more, saturated at WINDOW_MAX * WINDOW_MULT;
a sequence not inflight leaves everything unchanged except the single
saturated +1 on the window. -/
def SrtlaAckSpec (c : Conn) (seq : ℕ) (now : Int) : Prop :=
  (seq ∈ c.packets_in_flight →
    (c.handle_srtla_ack_sn seq now).packets_in_flight = c.packets_in_flight.erase seq ∧
    (c.handle_srtla_ack_sn seq now).smooth_rtt
      = c.smooth_rtt * (7 / 8) + ((now - c.last_sent : Int) : ℚ) * (1 / 8) ∧
    (c.handle_srtla_ack_sn seq now).fast_rtt
      = c.fast_rtt * (3 / 4) + ((now - c.last_sent : Int) : ℚ) * (1 / 4) ∧
    (c.handle_srtla_ack_sn seq now).window
      = min ((if ((c.packets_in_flight.erase seq).card : Int) * WINDOW_MULT > c.window
              then c.window + 29 else c.window) + 1)
            (WINDOW_MAX * WINDOW_MULT)) ∧
  (seq ∉ c.packets_in_flight →
    (c.handle_srtla_ack_sn seq now).packets_in_flight = c.packets_in_flight ∧
    (c.handle_srtla_ack_sn seq now).window = min (c.window + 1) (WINDOW_MAX * WINDOW_MULT) ∧
    (c.handle_srtla_ack_sn seq now).smooth_rtt = c.smooth_rtt ∧
    (c.handle_srtla_ack_sn seq now).fast_rtt = c.fast_rtt ∧
    (c.handle_srtla_ack_sn seq now).ack_count = c.ack_count ∧
    (c.handle_srtla_ack_sn seq now).nak_count = c.nak_count)

/-- C2: handle_srtla_ack_sn behaves as specified by SrtlaAckSpec.  The
hypothesis 0 < last_sent holds in every state the engine can reach with a
nonempty inflight set, since mark_sent is the only inflight insertion and it
stamps last_sent with the (positive) wall clock. -/
theorem srtla_ack_behavior (c : Conn) (seq : ℕ) (now : Int) (h : 0 < c.last_sent) :
    SrtlaAckSpec c seq now := by
  unfold SrtlaAckSpec Conn.handle_srtla_ack_sn
  constructor
  · intro hmem
    rw [if_pos hmem]
    simp [h]
  · intro hmem
    rw [if_neg hmem]
    simp

/-- A concrete connection exercising srtla_ack_behavior. -/
def ackConn : Conn :=
  { Conn.init "10.0.0.1" 0 with packets_in_flight := {5}, last_sent := 10 }

theorem srtla_ack_behavior_witness : 0 < ackConn.last_sent ∧ SrtlaAckSpec ackConn 5 100 :=
  ⟨by decide, srtla_ack_behavior ackConn 5 100 (by decide)⟩

/-! Engine model, from `srtla_core.cpp`.  The path table is the
`connections_` vector; a connection is addressed positionally (the C code
holds raw pointers into the vector). -/

/-- Engine state relevant to response handling: the path table, whether the
encoder address is known (`has_srt_client_`), and the 256-byte session id. -/
structure Core where
  conns : List Conn
  has_srt_client : Bool
  srtla_id : List ℕ
deriving DecidableEq

/-- Result of one `SrtlaCore::handle_srtla_response` call: updated engine
state, datagrams forwarded to the SRT client, and whether a REG2 broadcast was
triggered. -/
structure RespOut where
  conns : List Conn
  has_srt_client : Bool
  srtla_id : List ℕ
  fwd : List (List ℕ)
  reg2_broadcast : Bool
deriving DecidableEq

/-- Replace the element at one index (mutation through a pointer into
`connections_`). -/
def modifyIdx : List Conn → ℕ → (Conn → Conn) → List Conn
  | [], _, _ => []
  | c :: cs, 0, f => f c :: cs
  | c :: cs, n + 1, f => c :: modifyIdx cs n f

/-- `conn->mark_received()` applied to the receiving connection. -/
def markReceivedAt (conns : List Conn) (idx : ℕ) (now : Int) : List Conn :=
  modifyIdx conns idx (fun c => c.mark_received now)

/-- The broadcast pattern of `srtla_core.cpp`: apply an update to every
connection whose state is CONNECTED, in table order. -/
def broadcastConnected (f : Conn → Conn) (conns : List Conn) : List Conn :=
  conns.map (fun c => if c.state = ConnState.CONNECTED then f c else c)

/-- SRT ACK broadcast (`handle_srtla_response`, SRT_TYPE_ACK block). -/
def broadcast_srt_ack (conns : List Conn) (ack : ℕ) (now : Int) : List Conn :=
  broadcastConnected (fun c => c.handle_srt_ack_sn ack now) conns

/-- SRT NAK broadcast: outer loop over parsed sequences, inner loop over
connections (`handle_srtla_response`, SRT_TYPE_NAK block). -/
def broadcast_srt_nak (conns : List Conn) (seqs : List ℕ) (now : Int) : List Conn :=
  seqs.foldl (fun cs seq => broadcastConnected (fun c => c.handle_srt_nak_sn seq now) cs) conns

/-- SRTLA ACK broadcast: outer loop over the ten embedded sequences, inner
loop over connections (`handle_registration_packet`, SRTLA_TYPE_ACK block). -/
def broadcast_srtla_ack (conns : List Conn) (seqs : List ℕ) (now : Int) : List Conn :=
  seqs.foldl (fun cs seq => broadcastConnected (fun c => c.handle_srtla_ack_sn seq now) cs) conns

/-- The ten 32-bit sequence numbers of a 44-byte SRTLA ACK, read at offsets
4, 8, ..., 40. -/
def srtlaAckSeqs (data : List ℕ) : List ℕ :=
  (List.range 10).map (fun i => beWordAt data (4 + 4 * i))

/-- `Protocol::parse_srtla_data_packet`: header is 2-byte type + 4-byte
virtual IP + 4-byte sequence; returns (ip bytes, sequence, SRT payload). -/
def parse_srtla_data_packet (data : List ℕ) : Option (List ℕ × ℕ × List ℕ) :=
  if data.length < 10 then none
  else if (data.getD 0 0) * 256 + data.getD 1 0 ≠ SRTLA_TYPE_DATA then none
  else some ((data.drop 2).take 4, (beWordAt data 6, data.drop 10))

/-- `SrtlaCore::handle_srtla_response(conn, data, len)`, with the receiving
connection given by its index in the table.  The branch order mirrors the
source exactly: mark_received; SRTLA-DATA parse-and-forward; the raw-SRT
forward-and-return block (covering SRT data, generic SRT control and SRT ACK);
the SRT_TYPE_SHUTDOWN reset; the SRT ACK broadcast block; the SRT NAK
broadcast block; then `handle_registration_packet` (REG2, REG3, SRTLA ACK,
KEEPALIVE, REG_ERR); finally the fallback forward to the SRT client. -/
def handle_srtla_response (core : Core) (idx : ℕ) (data : List ℕ) (now : Int) : RespOut :=
  let conns0 := markReceivedAt core.conns idx now
  let ty := get_packet_type data
  if ty = SRTLA_TYPE_DATA then
    match parse_srtla_data_packet data with
    | some pr => ⟨conns0, core.has_srt_client, core.srtla_id, [pr.2.2], false⟩
    | none => ⟨conns0, core.has_srt_client, core.srtla_id, [], false⟩
  else if ty = SRT_TYPE_DATA ∨ ty = SRT_TYPE_CONTROL ∨ ty = SRT_TYPE_ACK then
    ⟨conns0, core.has_srt_client, core.srtla_id, [data], false⟩
  else if ty = SRT_TYPE_SHUTDOWN then
    ⟨conns0, false, core.srtla_id, [], false⟩
  else
    let conns1 :=
      if ty = SRT_TYPE_ACK ∧ 20 ≤ data.length then broadcast_srt_ack conns0 (beWordAt data 16) now
      else conns0
    let conns2 :=
      if ty = SRT_TYPE_NAK then
        match parse_srt_nak data 100 with
        | some seqs => if 0 < seqs.length then broadcast_srt_nak conns1 seqs now else conns1
        | none => conns1
      else conns1
    if ty = SRTLA_TYPE_REG2 then
      if 2 + SRTLA_ID_LEN ≤ data.length then
        if (data.drop 2).take (SRTLA_ID_LEN / 2) = core.srtla_id.take (SRTLA_ID_LEN / 2) then
          ⟨markReceivedAt conns2 idx now, core.has_srt_client,
            (data.drop 2).take SRTLA_ID_LEN, [], true⟩
        else ⟨markReceivedAt conns2 idx now, core.has_srt_client, core.srtla_id, [], false⟩
      else ⟨markReceivedAt conns2 idx now, core.has_srt_client, core.srtla_id, [], false⟩
    else if ty = SRTLA_TYPE_REG3 then
      ⟨markReceivedAt (modifyIdx conns2 idx (fun c => { c with state := ConnState.CONNECTED })) idx now,
        core.has_srt_client, core.srtla_id, [], false⟩
    else if ty = SRTLA_TYPE_ACK then
      if 44 ≤ data.length then
        ⟨markReceivedAt (broadcast_srtla_ack conns2 (srtlaAckSeqs data) now) idx now,
          core.has_srt_client, core.srtla_id, [], false⟩
      else ⟨markReceivedAt conns2 idx now, core.has_srt_client, core.srtla_id, [], false⟩
    else if ty = SRTLA_TYPE_KEEPALIVE then
      ⟨markReceivedAt conns2 idx now, core.has_srt_client, core.srtla_id, [], false⟩
    else if ty = SRTLA_TYPE_REG_ERR then
      ⟨conns2, core.has_srt_client, core.srtla_id, [], false⟩
    else if core.has_srt_client then
      ⟨conns2, core.has_srt_client, core.srtla_id, [data], false⟩
    else
      ⟨conns2, core.has_srt_client, core.srtla_id, [], false⟩

/-- The `connections_by_ip_` lookup (first table entry with the given
virtual ip). -/
def findIdxByIp : List Conn → String → Option ℕ
  | [], _ => none
  | c :: cs, ip => if c.virtual_ip = ip then some 0 else (findIdxByIp cs ip).map (· + 1)

/-- The last_conn search loop in `SrtlaCore::remove_connection`: the first
connection that is CONNECTED and is not the removal target (pointer
comparison becomes index comparison). -/
def findOtherConnectedIdxAux : List Conn → ℕ → ℕ → Option ℕ
  | [], _, _ => none
  | c :: cs, j, idx =>
    if c.state = ConnState.CONNECTED ∧ j ≠ idx then some j
    else findOtherConnectedIdxAux cs (j + 1) idx

def findOtherConnectedIdx (conns : List Conn) (idx : ℕ) : Option ℕ :=
  findOtherConnectedIdxAux conns 0 idx

/-- The step of `SrtlaCore::remove_connection` that clears inflight tracking
and resets the window on the single remaining active connection (guarded by
`remaining_count == 1` and a nonempty inflight set). -/
def clearLastIfSingle (conns1 : List Conn) (idx : ℕ) (remaining : ℕ) : List Conn :=
  if remaining = 1 then
    match findOtherConnectedIdx conns1 idx with
    | some j =>
      match conns1[j]? with
      | some lastc =>
        if 0 < lastc.packets_in_flight.card then
          modifyIdx conns1 j (fun c => c.clear_inflight.reset_window)
        else conns1
      | none => conns1
    | none => conns1
  else conns1

/-- `SrtlaCore::remove_connection(virtual_ip)`.  Returns the C bool result,
the updated table, and the keepalive datagrams sent on remaining CONNECTED
connections as (virtual ip, wire length) pairs.  The source builds each
keepalive with `Protocol::create_keepalive_packet` into a 4-byte local buffer,
hence length `create_keepalive_len 4`.  The active count filters on
`state == CONNECTED && !is_zombie()`; CONNECTED already excludes ZOMBIE, so
the filter tests CONNECTED alone. -/
def remove_connection (conns : List Conn) (ip : String) (now : Int) :
    Bool × List Conn × List (String × ℕ) :=
  match findIdxByIp conns ip with
  | none => (false, conns, [])
  | some idx =>
    match conns[idx]? with
    | none => (false, conns, [])
    | some conn =>
      if conn.state = ConnState.ZOMBIE then (false, conns, [])
      else
        let active_count := (conns.filter (fun c => decide (c.state = ConnState.CONNECTED))).length
        if active_count ≤ 1 then (false, conns, [])
        else
          let conns1 := modifyIdx conns idx (fun c => c.mark_zombie now)
          let conns2 := clearLastIfSingle conns1 idx (active_count - 1)
          let keepalives :=
            (conns2.filter (fun c => decide (c.state = ConnState.CONNECTED))).map
              (fun c => (c.virtual_ip, create_keepalive_len 4))
          (true, conns2, keepalives)

/-- `SrtlaCore::connection_housekeeping()`: erase every connection whose
activity gap exceeds 4000 ms, regardless of its state (Zombies included).
It runs on every event-loop iteration, before the timeout-recovery block. -/
def connection_housekeeping (conns : List Conn) (now : Int) : List Conn :=
  conns.filter (fun c => decide (¬ c.is_timed_out now))

/-- `SrtlaCore::cleanup_expired_zombies()`: drop zombies older than 15 s,
returning the surviving table and the virtual IPs released back to the pool
(the only place the engine releases IPs apart from a failed add). -/
def cleanup_expired_zombies (conns : List Conn) (now : Int) : List Conn × List String :=
  (conns.filter (fun c => decide (¬ c.is_zombie_expired now)),
   (conns.filter (fun c => decide (c.is_zombie_expired now))).map (fun c => c.virtual_ip))

/-- One connection's treatment by the timeout-recovery block of
`SrtlaCore::event_loop`: a timed-out CONNECTED connection (or any timed-out
non-Zombie connection) is demoted to REGISTERING_REG1 and a REG1 is sent on
its socket. -/
def recoverConn (c : Conn) (now : Int) : Conn × List String :=
  if c.is_timed_out now then
    if c.state = ConnState.CONNECTED then
      ({ c with state := ConnState.REGISTERING_REG1 }, [c.virtual_ip])
    else if c.state ≠ ConnState.ZOMBIE then
      ({ c with state := ConnState.REGISTERING_REG1 }, [c.virtual_ip])
    else (c, [])
  else (c, [])

/-- The timeout-recovery block over the whole table; the second component
lists the virtual IPs on which a REG1 was (re)sent. -/
def recover_timed_out (conns : List Conn) (now : Int) : List Conn × List String :=
  (conns.map (fun c => (recoverConn c now).1),
   (conns.map (fun c => (recoverConn c now).2)).foldr (· ++ ·) [])

/-- The event-loop iteration tail relevant to timed-out paths, in source
order: `connection_housekeeping()` first, then the recovery block. -/
def loopTimeoutPhase (conns : List Conn) (now : Int) : List Conn × List String :=
  recover_timed_out (connection_housekeeping conns now) now

/-! Concrete connections and packets used by the individual claims. -/

/-- A Connected path created at time 0 (so last_activity = 0). -/
def kaA : Conn := { Conn.init "10.0.0.1" 0 with state := ConnState.CONNECTED }

/-- A second Connected path. -/
def kaB : Conn := { Conn.init "10.0.0.2" 0 with state := ConnState.CONNECTED }

/-- A third Connected path. -/
def kaC : Conn := { Conn.init "10.0.0.3" 0 with state := ConnState.CONNECTED }

/-- A Zombie: removed at t = 1000 (zombie_time = 1000) with its last activity
also at t = 1000. -/
def zConn : Conn :=
  { Conn.init "10.0.0.8" 1000 with state := ConnState.ZOMBIE, zombie_time := 1000 }

/-- A Connected path with sequence 100 inflight. -/
def connA : Conn :=
  { Conn.init "10.0.0.1" 0 with state := ConnState.CONNECTED, packets_in_flight := {100} }

/-- A 20-byte SRT ACK datagram acknowledging sequence 200 (first word has
bit 31 set and control subtype 2). -/
def ackPkt : List ℕ := [0x80, 0x02, 0, 0] ++ List.replicate 12 0 ++ [0, 0, 0, 200]

/-- C3 (code bug): a path removed via remove_path does NOT survive the full
ZOMBIE_TTL_MS.  A zombie that receives no packet for more than
PATH_TIMEOUT_MS = 4000 ms is erased from the table by connection_housekeeping
on the next loop iteration — here at t = 6000, only 5000 ms into its zombie
lifetime — while is_zombie_expired is still false, and
cleanup_expired_zombies (the only place a virtual IP is released) would have
kept it and released nothing. -/
theorem zombie_reaped_before_ttl :
    connection_housekeeping [zConn] 6000 = [] ∧
    ¬ zConn.is_zombie_expired 6000 ∧
    cleanup_expired_zombies [zConn] 6000 = ([zConn], []) := by
  refine ⟨by decide, by decide, by decide⟩

/-- A Connected path created (= last active) at time 0, for claim C4. -/
def c4conn : Conn := { Conn.init "10.0.0.7" 0 with state := ConnState.CONNECTED }

/-- C4 (code bug): a Connected path whose activity gap exceeds 4000 ms is
never recovered, because connection_housekeeping runs earlier in the same
loop iteration and erases it: at t = 5000 the combined phase leaves an empty
table and sends no REG1, although the recovery block by itself would have
demoted the path to REGISTERING_REG1 and re-sent REG1. -/
theorem timeout_recovery_preempted :
    loopTimeoutPhase [c4conn] 5000 = ([], []) ∧
    recover_timed_out [c4conn] 5000
      = ([{ c4conn with state := ConnState.REGISTERING_REG1 }], ["10.0.0.7"]) := by
  refine ⟨by decide, by decide⟩

/-- C5 (code bug): an SRT ACK received on a path socket is forwarded to the
encoder but never broadcast: handle_srtla_response returns from its raw-SRT
forwarding block before reaching the (dead) SRT-ACK broadcast block, so the
Connected path's inflight set keeps sequence 100 even though
handle_srt_ack_sn — had it been invoked as the claim states — would have
pruned it. -/
theorem srt_ack_broadcast_dead :
    (handle_srtla_response ⟨[connA], true, []⟩ 0 ackPkt 500).fwd = [ackPkt] ∧
    (handle_srtla_response ⟨[connA], true, []⟩ 0 ackPkt 500).conns = [connA.mark_received 500] ∧
    (connA.mark_received 500).packets_in_flight = {100} ∧
    ((connA.mark_received 500).handle_srt_ack_sn 200 500).packets_in_flight = ∅ := by
  refine ⟨by decide, by decide, by decide, by decide⟩

/-- C9 (code bug): after a successful removal the engine loops over the
remaining CONNECTED paths, but builds each keepalive into a 4-byte buffer;
create_keepalive_packet refuses (length 0), so a 0-byte datagram — not the
10-byte KEEPALIVE frame — is sent on each remaining path.  With an adequate
buffer the codec does produce the 10-byte frame. -/
theorem removal_keepalive_zero_length :
    (remove_connection [kaA, kaB, kaC] "10.0.0.3" 1000).1 = true ∧
    (remove_connection [kaA, kaB, kaC] "10.0.0.3" 1000).2.2
      = [("10.0.0.1", 0), ("10.0.0.2", 0)] ∧
    create_keepalive_len 4 = 0 ∧ create_keepalive_len 10 = 10 := by
  refine ⟨by decide, by decide, by decide, by decide⟩

/-- A path awaiting registration, for claim C8. -/
def conn8 : Conn := { Conn.init "10.0.0.4" 0 with state := ConnState.REGISTERING_REG1 }

/-- A REG_ERR datagram (type 0x9210). -/
def regErrPkt : List ℕ := [0x92, 0x10]

/-- C8 counterexample: a REG_ERR received on a registering path leaves the
path's state at REGISTERING_REG1; it does not become FAILED as the claim
states. -/
theorem reg_err_state_unchanged_cex :
    (handle_srtla_response ⟨[conn8], true, []⟩ 0 regErrPkt 50).conns.map Conn.state
      = [ConnState.REGISTERING_REG1] ∧
    ¬ ((handle_srtla_response ⟨[conn8], true, []⟩ 0 regErrPkt 50).conns.map Conn.state
      = [ConnState.FAILED]) := by
  refine ⟨by decide, by decide⟩

/-! Helper lemmas about list indexing, modifyIdx and the search functions. -/

lemma mem_of_getElem_opt {α : Type} {l : List α} {i : ℕ} {a : α} (h : l[i]? = some a) :
    a ∈ l := by
  obtain ⟨hlt, rfl⟩ := List.getElem?_eq_some.mp h
  exact List.getElem_mem hlt

lemma modifyIdx_getElem_self (l : List Conn) (i : ℕ) (f : Conn → Conn) :
    (modifyIdx l i f)[i]? = (l[i]?).map f := by
  induction l generalizing i with
  | nil => simp [modifyIdx]
  | cons c cs ih =>
      cases i with
      | zero => simp [modifyIdx]
      | succ n => simpa [modifyIdx] using ih n

lemma modifyIdx_getElem_ne (l : List Conn) (i j : ℕ) (f : Conn → Conn) (h : j ≠ i) :
    (modifyIdx l i f)[j]? = l[j]? := by
  induction l generalizing i j with
  | nil => simp [modifyIdx]
  | cons c cs ih =>
      cases i with
      | zero =>
          cases j with
          | zero => exact absurd rfl h
          | succ m => simp [modifyIdx]
      | succ n =>
          cases j with
          | zero => simp [modifyIdx]
          | succ m => simpa [modifyIdx] using ih n m (by omega)

lemma modifyIdx_map_state (l : List Conn) (i : ℕ) (f : Conn → Conn)
    (hf : ∀ c, (f c).state = c.state) :
    (modifyIdx l i f).map Conn.state = l.map Conn.state := by
  induction l generalizing i with
  | nil => rfl
  | cons c cs ih =>
      cases i with
      | zero => simp [modifyIdx, hf]
      | succ n => simp [modifyIdx, ih]

lemma markReceivedAt_map_state (l : List Conn) (i : ℕ) (now : Int) :
    (markReceivedAt l i now).map Conn.state = l.map Conn.state :=
  modifyIdx_map_state l i _ (fun _ => rfl)

lemma findIdxByIp_spec :
    ∀ (l : List Conn) (ip : String) (i : ℕ), findIdxByIp l ip = some i →
      ∃ c, l[i]? = some c ∧ c.virtual_ip = ip := by
  intro l
  induction l with
  | nil => intro ip i h; simp [findIdxByIp] at h
  | cons c cs ih =>
      intro ip i h
      unfold findIdxByIp at h
      by_cases hc : c.virtual_ip = ip
      · rw [if_pos hc] at h
        obtain rfl : (0 : ℕ) = i := by simpa using h
        exact ⟨c, by simp, hc⟩
      · rw [if_neg hc] at h
        cases hfind : findIdxByIp cs ip with
        | none => rw [hfind] at h; simp at h
        | some n =>
            rw [hfind] at h
            have hni : n + 1 = i := by simpa using h
            obtain ⟨c2, hc2, hip⟩ := ih ip n hfind
            exact ⟨c2, by rw [← hni]; simpa using hc2, hip⟩

lemma findOtherAux_ne :
    ∀ (l : List Conn) (j0 idx j : ℕ), findOtherConnectedIdxAux l j0 idx = some j → j ≠ idx := by
  intro l
  induction l with
  | nil => intro j0 idx j h; simp [findOtherConnectedIdxAux] at h
  | cons c cs ih =>
      intro j0 idx j h
      unfold findOtherConnectedIdxAux at h
      split at h
      · next hcond =>
          obtain rfl : j0 = j := by simpa using h
          exact hcond.2
      · exact ih (j0 + 1) idx j h

lemma findOtherConnectedIdx_ne (l : List Conn) (idx j : ℕ)
    (h : findOtherConnectedIdx l idx = some j) : j ≠ idx :=
  findOtherAux_ne l 0 idx j h

lemma clearLastIfSingle_getElem (conns1 : List Conn) (idx r k : ℕ) (ck : Conn)
    (h : conns1[k]? = some ck) :
    ∃ c2, (clearLastIfSingle conns1 idx r)[k]? = some c2 ∧
      c2.state = ck.state ∧ c2.virtual_ip = ck.virtual_ip := by
  unfold clearLastIfSingle
  split
  · cases hfo : findOtherConnectedIdx conns1 idx with
    | none => exact ⟨ck, by simp [hfo, h], rfl, rfl⟩
    | some j =>
        cases hgj : conns1[j]? with
        | none => exact ⟨ck, by simp [hfo, hgj, h], rfl, rfl⟩
        | some lastc =>
            by_cases hcard : 0 < lastc.packets_in_flight.card
            · by_cases hkj : k = j
              · subst hkj
                refine ⟨lastc.clear_inflight.reset_window, ?_, ?_, ?_⟩
                · simp only [hfo, hgj, if_pos hcard]
                  rw [modifyIdx_getElem_self, hgj]
                  rfl
                · have : ck = lastc := by rw [h] at hgj; exact Option.some.inj hgj
                  rw [this]; rfl
                · have : ck = lastc := by rw [h] at hgj; exact Option.some.inj hgj
                  rw [this]; rfl
              · refine ⟨ck, ?_, rfl, rfl⟩
                simp only [hfo, hgj, if_pos hcard]
                rw [modifyIdx_getElem_ne _ _ _ _ hkj]
                exact h
            · exact ⟨ck, by simp [hfo, hgj, hcard, h], rfl, rfl⟩
  · exact ⟨ck, h, rfl, rfl⟩

lemma filter_one_index {α : Type} (p : α → Bool) :
    ∀ (l : List α), 1 ≤ (l.filter p).length →
      ∃ (i : ℕ) (ci : α), l[i]? = some ci ∧ p ci = true := by
  intro l
  induction l with
  | nil => intro h; simp at h
  | cons a l ih =>
      intro h
      rw [List.filter_cons] at h
      by_cases hpa : p a
      · exact ⟨0, a, by simp, hpa⟩
      · rw [if_neg (by simpa using hpa)] at h
        obtain ⟨i, ci, hi, hpi⟩ := ih h
        exact ⟨i + 1, ci, by simpa using hi, hpi⟩

lemma filter_two_indices {α : Type} (p : α → Bool) :
    ∀ (l : List α), 2 ≤ (l.filter p).length →
      ∃ (i j : ℕ) (ci cj : α),
        i ≠ j ∧ l[i]? = some ci ∧ p ci = true ∧ l[j]? = some cj ∧ p cj = true := by
  intro l
  induction l with
  | nil => intro h; simp at h
  | cons a l ih =>
      intro h
      rw [List.filter_cons] at h
      by_cases hpa : p a
      · rw [if_pos (by simpa using hpa)] at h
        simp only [List.length_cons] at h
        obtain ⟨j, cj, hj, hpj⟩ := filter_one_index p l (by omega)
        exact ⟨0, j + 1, a, cj, by omega, by simp, hpa, by simpa using hj, hpj⟩
      · rw [if_neg (by simpa using hpa)] at h
        obtain ⟨i, j, ci, cj, hij, hi, hpi, hj, hpj⟩ := ih h
        exact ⟨i + 1, j + 1, ci, cj, by omega, by simpa using hi, hpi, by simpa using hj, hpj⟩

lemma filter_connected_length_one :
    ∀ (conns : List Conn) (idx : ℕ) (conn : Conn), conns[idx]? = some conn →
      conn.state = ConnState.CONNECTED →
      (∀ j c2, j ≠ idx → conns[j]? = some c2 → c2.state ≠ ConnState.CONNECTED) →
      (conns.filter (fun c => decide (c.state = ConnState.CONNECTED))).length = 1 := by
  intro conns
  induction conns with
  | nil => intro idx conn h; simp at h
  | cons c cs ih =>
      intro idx conn h hc hothers
      cases idx with
      | zero =>
          have hcc : c = conn := by simpa using h
          subst hcc
          rw [List.filter_cons, if_pos (by simpa using hc)]
          have hnil : cs.filter (fun c2 => decide (c2.state = ConnState.CONNECTED)) = [] := by
            apply List.filter_eq_nil_iff.mpr
            intro a ha
            obtain ⟨j, hj⟩ := List.getElem?_of_mem ha
            simpa using hothers (j + 1) a (by omega) (by simpa using hj)
          simp [hnil]
      | succ n =>
          have hcfail : c.state ≠ ConnState.CONNECTED :=
            hothers 0 c (by omega) (by simp)
          rw [List.filter_cons, if_neg (by simpa using hcfail)]
          refine ih n conn (by simpa using h) hc ?_
          intro j c2 hj hj2
          exact hothers (j + 1) c2 (by omega) (by simpa using hj2)

/-- C6: remove_connection refuses (returns the refused status) whenever the
target is the last remaining non-Zombie Connected path, every refusal leaves
the path table unchanged, and every success leaves the named path Zombie with
at least one Connected (hence non-Zombie) path still present. -/
theorem remove_path_last_protection :
    (∀ (conns : List Conn) (ip : String) (now : Int),
        (remove_connection conns ip now).1 = false →
        (remove_connection conns ip now).2.1 = conns ∧
        (remove_connection conns ip now).2.2 = []) ∧
    (∀ (conns : List Conn) (ip : String) (now : Int) (idx : ℕ) (conn : Conn),
        findIdxByIp conns ip = some idx → conns[idx]? = some conn →
        conn.state = ConnState.CONNECTED →
        (∀ j c2, j ≠ idx → conns[j]? = some c2 → c2.state ≠ ConnState.CONNECTED) →
        (remove_connection conns ip now).1 = false) ∧
    (∀ (conns : List Conn) (ip : String) (now : Int),
        (remove_connection conns ip now).1 = true →
        (∃ c, c ∈ (remove_connection conns ip now).2.1 ∧ c.virtual_ip = ip ∧
          c.state = ConnState.ZOMBIE) ∧
        (∃ c2, c2 ∈ (remove_connection conns ip now).2.1 ∧
          c2.state = ConnState.CONNECTED)) := by
  refine ⟨?_, ?_, ?_⟩
  · intro conns ip now h
    unfold remove_connection at h ⊢
    cases hfind : findIdxByIp conns ip with
    | none => simp [hfind]
    | some idx =>
        cases hget : conns[idx]? with
        | none => simp [hfind, hget]
        | some conn =>
            simp only [hfind, hget] at h ⊢
            by_cases hz : conn.state = ConnState.ZOMBIE
            · simp [hz]
            · simp only [if_neg hz] at h ⊢
              by_cases hac :
                  (conns.filter (fun c => decide (c.state = ConnState.CONNECTED))).length ≤ 1
              · simp [hac]
              · simp only [if_neg hac] at h
                simp at h
  · intro conns ip now idx conn hfind hget hc hothers
    have hz : ¬ conn.state = ConnState.ZOMBIE := by
      rw [hc]; intro hfalse; exact absurd hfalse (by decide)
    have hcount := filter_connected_length_one conns idx conn hget hc hothers
    unfold remove_connection
    simp only [hfind, hget, if_neg hz, hcount]
    simp
  · intro conns ip now h
    unfold remove_connection at h ⊢
    cases hfind : findIdxByIp conns ip with
    | none => simp [hfind] at h
    | some idx =>
        cases hget : conns[idx]? with
        | none => simp [hfind, hget] at h
        | some conn =>
            simp only [hfind, hget] at h ⊢
            by_cases hz : conn.state = ConnState.ZOMBIE
            · rw [if_pos hz] at h; simp at h
            · simp only [if_neg hz] at h ⊢
              by_cases hac :
                  (conns.filter (fun c => decide (c.state = ConnState.CONNECTED))).length ≤ 1
              · rw [if_pos hac] at h; simp at h
              · simp only [if_neg hac] at h ⊢
                constructor
                · obtain ⟨c0, hc0, hip0⟩ := findIdxByIp_spec conns ip idx hfind
                  have hcc : c0 = conn := by
                    rw [hget] at hc0; exact (Option.some.inj hc0).symm
                  subst hcc
                  have h1 : (modifyIdx conns idx (fun c => c.mark_zombie now))[idx]?
                      = some (c0.mark_zombie now) := by
                    rw [modifyIdx_getElem_self, hget]; rfl
                  obtain ⟨c2, hc2, hst2, hip2⟩ :=
                    clearLastIfSingle_getElem _ idx
                      ((conns.filter (fun c => decide (c.state = ConnState.CONNECTED))).length - 1)
                      idx (c0.mark_zombie now) h1
                  refine ⟨c2, mem_of_getElem_opt hc2, ?_, ?_⟩
                  · rw [hip2]; exact hip0
                  · rw [hst2]; rfl
                · have h2 : 2 ≤
                      (conns.filter (fun c => decide (c.state = ConnState.CONNECTED))).length := by
                    omega
                  obtain ⟨i, j, ci, cj, hij, hi, hpi, hj, hpj⟩ :=
                    filter_two_indices (fun c => decide (c.state = ConnState.CONNECTED)) conns h2
                  by_cases hki : i = idx
                  · subst hki
                    have hjne : j ≠ i := fun hh => hij hh.symm
                    have hcj : cj.state = ConnState.CONNECTED := of_decide_eq_true hpj
                    have h1 : (modifyIdx conns i (fun c => c.mark_zombie now))[j]? = some cj := by
                      rw [modifyIdx_getElem_ne _ _ _ _ hjne]; exact hj
                    obtain ⟨c3, hc3, hst3, _⟩ :=
                      clearLastIfSingle_getElem _ i
                        ((conns.filter (fun c => decide (c.state = ConnState.CONNECTED))).length - 1)
                        j cj h1
                    exact ⟨c3, mem_of_getElem_opt hc3, by rw [hst3]; exact hcj⟩
                  · have hci : ci.state = ConnState.CONNECTED := of_decide_eq_true hpi
                    have h1 : (modifyIdx conns idx (fun c => c.mark_zombie now))[i]? = some ci := by
                      rw [modifyIdx_getElem_ne _ _ _ _ hki]; exact hi
                    obtain ⟨c3, hc3, hst3, _⟩ :=
                      clearLastIfSingle_getElem _ idx
                        ((conns.filter (fun c => decide (c.state = ConnState.CONNECTED))).length - 1)
                        i ci h1
                    exact ⟨c3, mem_of_getElem_opt hc3, by rw [hst3]; exact hci⟩

theorem remove_path_last_protection_witness :
    ((remove_connection [kaA] "10.0.0.1" 5).2.1 = [kaA] ∧
      (remove_connection [kaA] "10.0.0.1" 5).2.2 = []) ∧
    ((remove_connection [kaA] "10.0.0.1" 5).1 = false) ∧
    ((∃ c, c ∈ (remove_connection [kaA, kaB, kaC] "10.0.0.3" 9).2.1 ∧
        c.virtual_ip = "10.0.0.3" ∧ c.state = ConnState.ZOMBIE) ∧
      (∃ c2, c2 ∈ (remove_connection [kaA, kaB, kaC] "10.0.0.3" 9).2.1 ∧
        c2.state = ConnState.CONNECTED)) :=
  ⟨remove_path_last_protection.1 [kaA] "10.0.0.1" 5 (by decide),
   remove_path_last_protection.2.1 [kaA] "10.0.0.1" 5 0 kaA (by decide) (by decide) (by decide)
     (by
       intro j c2 hj hc2
       cases j with
       | zero => exact absurd rfl hj
       | succ n => simp at hc2),
   remove_path_last_protection.2.2 [kaA, kaB, kaC] "10.0.0.3" 9 (by decide)⟩

/-! Claim C7: SRT NAK broadcast and per-connection penalty. -/

/-- Specification predicate for one call of `Connection::handle_srt_nak_sn`:
an owning connection removes the sequence, drops its window by 100 (floored at
WINDOW_MIN * WINDOW_MULT) and counts the NAK; a connection that did not send
the sequence is left completely unchanged. -/
def NakConnSpec (c : Conn) (seq : ℕ) (now : Int) : Prop :=
  (seq ∈ c.packets_in_flight →
    c.handle_srt_nak_sn seq now =
      { c with
        packets_in_flight := c.packets_in_flight.erase seq
        window := max (c.window - 100) (WINDOW_MIN * WINDOW_MULT)
        nak_count := c.nak_count + 1
        last_activity := now }) ∧
  (seq ∉ c.packets_in_flight → c.handle_srt_nak_sn seq now = c)

/-- C7: when an SRT NAK arrives on a path socket, every parsed lost sequence
is broadcast (in order) to every CONNECTED connection, and each connection
applies the owner-only penalty of NakConnSpec. -/
theorem nak_broadcast_owner_penalty :
    (∀ (c : Conn) (seq : ℕ) (now : Int), NakConnSpec c seq now) ∧
    (∀ (core : Core) (idx : ℕ) (data : List ℕ) (now : Int) (seqs : List ℕ),
      get_packet_type data = SRT_TYPE_NAK →
      parse_srt_nak data 100 = some seqs → 0 < seqs.length →
      (handle_srtla_response core idx data now).conns
        = broadcast_srt_nak (markReceivedAt core.conns idx now) seqs now) := by
  refine ⟨?_, ?_⟩
  · intro c seq now
    refine ⟨fun hmem => ?_, fun hmem => ?_⟩
    · unfold Conn.handle_srt_nak_sn
      rw [if_pos hmem]
    · unfold Conn.handle_srt_nak_sn
      rw [if_neg hmem]
  · intro core idx data now seqs hty hp hlen
    cases hcl : core.has_srt_client <;>
      simp [handle_srtla_response, hty, hp, hlen, hcl, SRT_TYPE_NAK, SRTLA_TYPE_DATA,
        SRT_TYPE_DATA, SRT_TYPE_CONTROL, SRT_TYPE_ACK, SRT_TYPE_SHUTDOWN, SRTLA_TYPE_REG2,
        SRTLA_TYPE_REG3, SRTLA_TYPE_ACK, SRTLA_TYPE_KEEPALIVE, SRTLA_TYPE_REG_ERR]

/-- A Connected path that sent sequence 200, for the C7 witness. -/
def nakConnB : Conn :=
  { Conn.init "10.0.0.2" 0 with state := ConnState.CONNECTED, packets_in_flight := {200} }

/-- A 20-byte SRT NAK datagram listing the single lost sequence 200. -/
def nakPkt : List ℕ := [0x80, 0x03, 0, 0] ++ List.replicate 12 0 ++ [0, 0, 0, 200]

theorem nak_broadcast_owner_penalty_witness :
    NakConnSpec nakConnB 200 7 ∧
    (handle_srtla_response ⟨[nakConnB], false, []⟩ 0 nakPkt 7).conns
      = broadcast_srt_nak (markReceivedAt [nakConnB] 0 7) [200] 7 :=
  ⟨nak_broadcast_owner_penalty.1 nakConnB 200 7,
   nak_broadcast_owner_penalty.2 ⟨[nakConnB], false, []⟩ 0 nakPkt 7 [200]
     (by decide) (by decide) (by decide)⟩

/-- C8 amended: a REG_ERR datagram is consumed by the registration handler -
the receiving connection is stamped as active and nothing is forwarded to the
encoder - but no connection's state changes; in particular no path is marked
FAILED. -/
theorem reg_err_no_failure :
    ∀ (core : Core) (idx : ℕ) (data : List ℕ) (now : Int),
      get_packet_type data = SRTLA_TYPE_REG_ERR →
      (handle_srtla_response core idx data now).conns = markReceivedAt core.conns idx now ∧
      (handle_srtla_response core idx data now).fwd = [] ∧
      (handle_srtla_response core idx data now).conns.map Conn.state
        = core.conns.map Conn.state := by
  intro core idx data now hty
  have h1 : (handle_srtla_response core idx data now).conns
      = markReceivedAt core.conns idx now := by
    simp [handle_srtla_response, hty, SRTLA_TYPE_REG_ERR, SRTLA_TYPE_DATA, SRT_TYPE_DATA,
      SRT_TYPE_CONTROL, SRT_TYPE_ACK, SRT_TYPE_SHUTDOWN, SRT_TYPE_NAK, SRTLA_TYPE_REG2,
      SRTLA_TYPE_REG3, SRTLA_TYPE_ACK, SRTLA_TYPE_KEEPALIVE]
  have h2 : (handle_srtla_response core idx data now).fwd = [] := by
    simp [handle_srtla_response, hty, SRTLA_TYPE_REG_ERR, SRTLA_TYPE_DATA, SRT_TYPE_DATA,
      SRT_TYPE_CONTROL, SRT_TYPE_ACK, SRT_TYPE_SHUTDOWN, SRT_TYPE_NAK, SRTLA_TYPE_REG2,
      SRTLA_TYPE_REG3, SRTLA_TYPE_ACK, SRTLA_TYPE_KEEPALIVE]
  exact ⟨h1, h2, by rw [h1]; exact markReceivedAt_map_state core.conns idx now⟩

theorem reg_err_no_failure_witness :
    get_packet_type regErrPkt = SRTLA_TYPE_REG_ERR ∧
    ((handle_srtla_response ⟨[conn8], true, []⟩ 0 regErrPkt 50).conns
        = markReceivedAt [conn8] 0 50 ∧
      (handle_srtla_response ⟨[conn8], true, []⟩ 0 regErrPkt 50).fwd = [] ∧
      (handle_srtla_response ⟨[conn8], true, []⟩ 0 regErrPkt 50).conns.map Conn.state
        = [conn8].map Conn.state) :=
  ⟨by decide, reg_err_no_failure ⟨[conn8], true, []⟩ 0 regErrPkt 50 (by decide)⟩

end Srtla
